import Mathlib

/-!
Verification of the task-board state-management core of the Join Kanban
application, shallowly embedded from the TypeScript sources
(`board.component.ts`, `add-task.component.ts`, `summary.component.ts`).

Mutable component fields become a `BoardState` record; every Firestore
write (`updateDoc`, `addDoc`) is recorded as a `RemoteCall` value returned
alongside the new state; the outcome of an awaited remote call is passed
in as an explicit `Bool`/`Option` parameter.  JavaScript object aliasing
(a task object shared between `allTasks` and a column array) is modelled
by updating the record with the matching `id`; Firestore document ids are
unique, which the theorems assume where relevant.
-/

namespace Join

/-- The four workflow statuses of `Task.status` (`board.component.ts`). -/
inductive Status
  | todo
  | inprogress
  | awaitfeedback
  | done
deriving DecidableEq

/-- Task priority levels (`board.component.ts`). -/
inductive Priority
  | urgent
  | medium
  | low
deriving DecidableEq

/-- The `Task` interface of `board.component.ts`.  Optional JS fields
(`id?`, `completedSubtasks?`, `deleted?`) become `Option`/defaulted
values: `completedSubtasks` is only read after the code initializes it to
`[]`, and `deleted` is only read through the falsy test `!task.deleted`,
so a missing value behaves as `[]` / `false`. -/
structure Task where
  id : Option String
  title : String
  description : String
  dueDate : String
  priority : Priority
  assignedTo : List String
  category : String
  subtasks : List String
  status : Status
  createdAt : String
  completedSubtasks : List String
  deleted : Bool
deriving DecidableEq

/-- The `Contact` interface of `board.component.ts`. -/
structure Contact where
  id : Option String
  name : String
  email : Option String
  phone : Option String
  color : Option String
deriving DecidableEq

/-- Names of the fields of a task document, used to describe which fields
a partial remote update touches. -/
inductive TaskField
  | title
  | description
  | dueDate
  | priority
  | assignedTo
  | category
  | subtasks
  | status
  | completedSubtasks
  | createdAt
  | deleted
deriving DecidableEq

/-- One field assignment inside a Firestore partial-update / insert
payload. -/
inductive FieldUpdate
  | title (v : String)
  | description (v : String)
  | dueDate (v : String)
  | priority (v : Priority)
  | assignedTo (v : List String)
  | category (v : String)
  | subtasks (v : List String)
  | status (v : Status)
  | completedSubtasks (v : List String)
  | createdAt (v : String)
  | deleted (v : Bool)
deriving DecidableEq

/-- The field a `FieldUpdate` assigns. -/
def fieldName : FieldUpdate → TaskField
  | .title _ => .title
  | .description _ => .description
  | .dueDate _ => .dueDate
  | .priority _ => .priority
  | .assignedTo _ => .assignedTo
  | .category _ => .category
  | .subtasks _ => .subtasks
  | .status _ => .status
  | .completedSubtasks _ => .completedSubtasks
  | .createdAt _ => .createdAt
  | .deleted _ => .deleted

/-- A remote write against the `tasks` collection: `updateDoc` keyed by a
document id, or `addDoc` of a fresh document. -/
inductive RemoteCall
  | updateTask (id : String) (fields : List FieldUpdate)
  | addTask (fields : List FieldUpdate)
deriving DecidableEq

/-- JS truthiness of an optional string id (`!task.id` is true for both
`undefined` and the empty string). -/
def idTruthy : Option String → Bool
  | none => false
  | some s => s != ""

/-- The mutable state of `BoardComponent`: the flat task list, the four
column arrays, the contact list, UI flags, and the detail / edit-session
fields. -/
structure BoardState where
  allTasks : List Task
  allContacts : List Contact
  todoTasks : List Task
  inProgressTasks : List Task
  awaitFeedbackTasks : List Task
  doneTasks : List Task
  isLoading : Bool
  error : String
  selectedTask : Option Task
  isEditMode : Bool
  editTask : Option Task
  editContactSearch : String
  showEditContactsDropdown : Bool
  filteredEditContacts : List Contact
  showMobileMenu : Option String
deriving DecidableEq

/-- `sortTasksIntoColumns` (board.component.ts, lines 268-273): derives
the four column arrays by filtering `allTasks` on `status`. -/
def sortTasksIntoColumns (s : BoardState) : BoardState :=
  { s with
    todoTasks := s.allTasks.filter (fun t => t.status == Status.todo)
    inProgressTasks := s.allTasks.filter (fun t => t.status == Status.inprogress)
    awaitFeedbackTasks := s.allTasks.filter (fun t => t.status == Status.awaitfeedback)
    doneTasks := s.allTasks.filter (fun t => t.status == Status.done) }

/-- The column array produced by `sortTasksIntoColumns` for a given
status. -/
def columnFor (s : BoardState) : Status → List Task
  | .todo => s.todoTasks
  | .inprogress => s.inProgressTasks
  | .awaitfeedback => s.awaitFeedbackTasks
  | .done => s.doneTasks

/-- CDK drag-and-drop utility `moveItemInArray` (from
`@angular/cdk/drag-drop`, called by `onTaskDrop`): clamps both indices to
`[0, length - 1]`, then moves the item at the source index to the
destination index, shifting the items in between. -/
def moveItemInArray {α : Type} (l : List α) (i j : Nat) : List α :=
  if min i (l.length - 1) = min j (l.length - 1) then l
  else
    match l.get? (min i (l.length - 1)) with
    | none => l
    | some x => (l.eraseIdx (min i (l.length - 1))).insertIdx (min j (l.length - 1)) x

/-- CDK drag-and-drop utility `transferArrayItem` (from
`@angular/cdk/drag-drop`, called by `onTaskDrop`): clamps the source
index to `[0, src.length - 1]` and the destination index to
`[0, dst.length]`, then splices the item out of the source array and into
the destination array; does nothing on an empty source. -/
def transferArrayItem {α : Type} (src dst : List α) (i j : Nat) :
    List α × List α :=
  match src.get? (min i (src.length - 1)) with
  | none => (src, dst)
  | some x =>
      (src.eraseIdx (min i (src.length - 1)), dst.insertIdx (min j dst.length) x)

/-- A CDK `CdkDragDrop` event as consumed by `onTaskDrop`: source and
destination container ids and indices.  The container arrays themselves
are recovered from the board state via the container id. -/
structure DropEvent where
  previousContainerId : String
  containerId : String
  previousIndex : Nat
  currentIndex : Nat
deriving DecidableEq

/-- `getStatusFromContainer` (board.component.ts, lines 357-371): fixed
lookup from a container id to a status; unrecognized ids give `none`. -/
def getStatusFromContainer (containerId : String) : Option Status :=
  if containerId = "todo-list" then some Status.todo
  else if containerId = "inprogress-list" then some Status.inprogress
  else if containerId = "awaitfeedback-list" then some Status.awaitfeedback
  else if containerId = "done-list" then some Status.done
  else none

/-- Modelled from the spec: the board template (not under `src/`) binds
each drop container id to one of the four column arrays; per spec §4.2
container identifiers map 1:1 onto the four status values, matching
`getStatusFromContainer`.  This reads the column bound to a container. -/
def getColumn (s : BoardState) (containerId : String) : Option (List Task) :=
  if containerId = "todo-list" then some s.todoTasks
  else if containerId = "inprogress-list" then some s.inProgressTasks
  else if containerId = "awaitfeedback-list" then some s.awaitFeedbackTasks
  else if containerId = "done-list" then some s.doneTasks
  else none

/-- Modelled from the spec: writing back the column array bound to a
container id (the in-place mutation of `event.container.data`). -/
def setColumn (s : BoardState) (containerId : String) (col : List Task) :
    BoardState :=
  if containerId = "todo-list" then { s with todoTasks := col }
  else if containerId = "inprogress-list" then { s with inProgressTasks := col }
  else if containerId = "awaitfeedback-list" then { s with awaitFeedbackTasks := col }
  else if containerId = "done-list" then { s with doneTasks := col }
  else s

/-- `updateTaskStatus` (board.component.ts, lines 378-388): the remote
partial update of only the `status` field, keyed by the task id. -/
def updateTaskStatus (taskId : String) (newStatus : Status) : RemoteCall :=
  RemoteCall.updateTask taskId [FieldUpdate.status newStatus]

/-- `onTaskDrop` (board.component.ts, lines 300-350).  Same container:
`moveItemInArray` only, no remote write.  Different containers: read the
task at the source index (an out-of-range read throws on `task.id` and is
swallowed by the outer catch, leaving the state unchanged); if the task
has a truthy id and the destination id maps to a status, run
`transferArrayItem`, set the moved object's `status` (the object is
shared with `allTasks`, modelled by updating the entry with the same id),
and issue the fire-and-forget `updateTaskStatus` call; otherwise nothing
happens. -/
def onTaskDrop (s : BoardState) (ev : DropEvent) : BoardState × List RemoteCall :=
  if ev.previousContainerId = ev.containerId then
    match getColumn s ev.containerId with
    | none => (s, [])
    | some col =>
        (setColumn s ev.containerId
          (moveItemInArray col ev.previousIndex ev.currentIndex), [])
  else
    match getColumn s ev.previousContainerId, getColumn s ev.containerId with
    | some src, some dst =>
        match src.get? ev.previousIndex with
        | none => (s, [])
        | some task =>
            match task.id, getStatusFromContainer ev.containerId with
            | some tid, some newStatus =>
                if tid = "" then (s, [])
                else
                  let moved := transferArrayItem src dst ev.previousIndex ev.currentIndex
                  let insPos := min ev.currentIndex dst.length
                  let dst2 := moved.2.set insPos { task with status := newStatus }
                  let s2 := setColumn (setColumn s ev.previousContainerId moved.1)
                    ev.containerId dst2
                  let s3 := { s2 with
                    allTasks := s2.allTasks.map (fun u =>
                      if u.id == some tid then { u with status := newStatus } else u) }
                  (s3, [updateTaskStatus tid newStatus])
            | _, _ => (s, [])
    | _, _ => (s, [])

/-- `moveTaskToStatus` (board.component.ts, lines 399-412), the non-drag
status move used by the mobile move menu.  The task reference is given as
an index into `allTasks`.  Early return when the status is unchanged or
the id is falsy.  Otherwise the remote update is awaited first
(`remoteOk` is its outcome): on success the task's `status` is set and
the columns re-derived; on failure only the error message is set. -/
def moveTaskToStatus (s : BoardState) (i : Nat) (newStatus : Status)
    (remoteOk : Bool) : BoardState × List RemoteCall :=
  match s.allTasks.get? i with
  | none => (s, [])
  | some t =>
      if t.status == newStatus || !(idTruthy t.id) then (s, [])
      else
        match t.id with
        | none => (s, [])
        | some tid =>
            if remoteOk then
              (sortTasksIntoColumns
                { s with allTasks := s.allTasks.set i { t with status := newStatus } },
                [updateTaskStatus tid newStatus])
            else
              ({ s with error := "Fehler beim Verschieben der Aufgabe" },
                [updateTaskStatus tid newStatus])

/-- `moveTaskViaMobile` (board.component.ts, lines 457-460): close the
mobile menu, then delegate to `moveTaskToStatus`. -/
def moveTaskViaMobile (s : BoardState) (i : Nat) (newStatus : Status)
    (remoteOk : Bool) : BoardState × List RemoteCall :=
  moveTaskToStatus { s with showMobileMenu := none } i newStatus remoteOk

/-- The `completedSubtasks` mutation inside `toggleSubtask`
(board.component.ts, lines 677-686): `indexOf` / `push` / `splice` on the
subtask text, i.e. append if absent, remove the first occurrence if
present. -/
def toggleCompleted (completed : List String) (text : String) : List String :=
  if completed.contains text then completed.erase text
  else completed ++ [text]

/-- `toggleSubtask` (board.component.ts, lines 668-708): guard on a
selected task with a truthy id, toggle the subtask text at the given
index in the selected record's `completedSubtasks`, issue the awaited
remote update of just that field, and on success mirror the new list into
the first `allTasks` entry with the same id; on failure only the error
message is set (the selected record's mutation already happened).  An
out-of-range subtask index cannot be produced by the rendering layer and
is modelled as a no-op. -/
def toggleSubtask (s : BoardState) (subtaskIndex : Nat) (remoteOk : Bool) :
    BoardState × List RemoteCall :=
  match s.selectedTask with
  | none => (s, [])
  | some sel =>
      if !(idTruthy sel.id) then (s, [])
      else
        match sel.id with
        | none => (s, [])
        | some tid =>
            match sel.subtasks.get? subtaskIndex with
            | none => (s, [])
            | some text =>
                let completed2 := toggleCompleted sel.completedSubtasks text
                let sel2 := { sel with completedSubtasks := completed2 }
                let call := RemoteCall.updateTask tid
                  [FieldUpdate.completedSubtasks completed2]
                if remoteOk then
                  let allTasks2 :=
                    match s.allTasks.findIdx? (fun u => u.id == some tid) with
                    | some k =>
                        match s.allTasks.get? k with
                        | some orig =>
                            s.allTasks.set k { orig with completedSubtasks := completed2 }
                        | none => s.allTasks
                    | none => s.allTasks
                  ({ s with selectedTask := some sel2, allTasks := allTasks2 }, [call])
                else
                  ({ s with
                    selectedTask := some sel2
                    error := "Fehler beim Aktualisieren der Subtask" }, [call])

/-- `startEditMode` (board.component.ts, lines 743-754): enter edit mode
with a deep copy of the task as the edit buffer
(`JSON.parse(JSON.stringify(task))` — a true value copy with no shared
nested containers, hence a plain value in this embedding) and reset the
contact-dropdown working state. -/
def startEditMode (s : BoardState) (task : Task) : BoardState :=
  { s with
    isEditMode := true
    editTask := some task
    filteredEditContacts := s.allContacts
    editContactSearch := ""
    showEditContactsDropdown := false }

/-- `closeEditContacts` (board.component.ts, lines 927-932). -/
def closeEditContacts (s : BoardState) : BoardState :=
  { s with
    showEditContactsDropdown := false
    editContactSearch := ""
    filteredEditContacts := s.allContacts }

/-- `cancelEditMode` (board.component.ts, lines 759-764): leave edit mode
and drop the buffer; contains no remote call. -/
def cancelEditMode (s : BoardState) : BoardState × List RemoteCall :=
  (closeEditContacts { s with isEditMode := false, editTask := none }, [])

/-- `addSubtaskToEdit` (board.component.ts, lines 815-823): push a fresh
subtask onto the edit buffer. -/
def addSubtaskToEdit (s : BoardState) : BoardState :=
  match s.editTask with
  | none => s
  | some t => { s with editTask := some { t with subtasks := t.subtasks ++ ["Neue Subtask"] } }

/-- `removeSubtaskFromEdit` (board.component.ts, lines 828-833):
`splice(index, 1)` on the edit buffer's subtasks. -/
def removeSubtaskFromEdit (s : BoardState) (index : Nat) : BoardState :=
  match s.editTask with
  | none => s
  | some t => { s with editTask := some { t with subtasks := t.subtasks.eraseIdx index } }

/-- `toggleEditContactSelection` (board.component.ts, lines 894-908):
toggle a contact id in the edit buffer's `assignedTo`. -/
def toggleEditContactSelection (s : BoardState) (contact : Contact) : BoardState :=
  match contact.id, s.editTask with
  | some cid, some t =>
      if cid = "" then s
      else if t.assignedTo.contains cid then
        { s with editTask := some { t with assignedTo := t.assignedTo.erase cid } }
      else
        { s with editTask := some { t with assignedTo := t.assignedTo ++ [cid] } }
  | _, _ => s

/-- One buffer mutation available while editing. -/
inductive EditOp
  | addSubtask
  | removeSubtask (index : Nat)
  | toggleContact (contact : Contact)

/-- Apply one edit-buffer mutation to the board state. -/
def applyEditOp (s : BoardState) : EditOp → BoardState
  | .addSubtask => addSubtaskToEdit s
  | .removeSubtask i => removeSubtaskFromEdit s i
  | .toggleContact c => toggleEditContactSelection s c

/-- Apply a sequence of edit-buffer mutations in order. -/
def applyEditOps (s : BoardState) (ops : List EditOp) : BoardState :=
  ops.foldl applyEditOp s

/-- The `updateData` payload built by `saveEditedTask`
(board.component.ts, lines 776-784): exactly the seven editable fields of
the edit buffer. -/
def editPayload (t : Task) : List FieldUpdate :=
  [FieldUpdate.title t.title,
   FieldUpdate.description t.description,
   FieldUpdate.dueDate t.dueDate,
   FieldUpdate.priority t.priority,
   FieldUpdate.assignedTo t.assignedTo,
   FieldUpdate.category t.category,
   FieldUpdate.subtasks t.subtasks]

/-- `saveEditedTask` (board.component.ts, lines 769-810): return early
when there is no edit buffer or its id is falsy (`!this.editTask.id` —
absent or the empty string); otherwise issue the awaited partial update
carrying `editPayload`; on success replace the first matching `allTasks`
entry with the buffer, re-run the partitioner, copy the buffer into
`selectedTask` and leave edit mode; on failure only set the error
message.  Note: no required-field validation is performed. -/
def saveEditedTask (s : BoardState) (remoteOk : Bool) :
    BoardState × List RemoteCall :=
  match s.editTask with
  | none => (s, [])
  | some t =>
      if !(idTruthy t.id) then (s, [])
      else
      match t.id with
      | none => (s, [])
      | some tid =>
          let call := RemoteCall.updateTask tid (editPayload t)
          if remoteOk then
            let allTasks2 :=
              match s.allTasks.findIdx? (fun u => u.id == some tid) with
              | some k => s.allTasks.set k t
              | none => s.allTasks
            (sortTasksIntoColumns
              { s with
                allTasks := allTasks2
                selectedTask := some t
                isEditMode := false
                editTask := none }, [call])
          else
            ({ s with error := "Fehler beim Speichern der Aufgabe" }, [call])

/-- A raw task document from the Firestore snapshot, before the board's
mapping: `status` may be missing (schema evolution) and `deleted` may be
absent (treated as `false` by the falsy test). -/
structure TaskDoc where
  docId : String
  title : String
  description : String
  dueDate : String
  priority : Priority
  assignedTo : List String
  category : String
  subtasks : List String
  status : Option Status
  createdAt : String
  completedSubtasks : List String
  deleted : Bool
deriving DecidableEq

/-- The board's mapping of a snapshot document (board.component.ts, lines
252-256): spread the data, take the document id, and default a missing
`status` to `todo`. -/
def taskFromDoc (d : TaskDoc) : Task :=
  { id := some d.docId
    title := d.title
    description := d.description
    dueDate := d.dueDate
    priority := d.priority
    assignedTo := d.assignedTo
    category := d.category
    subtasks := d.subtasks
    status := d.status.getD Status.todo
    createdAt := d.createdAt
    completedSubtasks := d.completedSubtasks
    deleted := d.deleted }

/-- `loadContacts` (board.component.ts, lines 230-242): on a successful
fetch store the contacts; a rejected fetch is caught inside the function
and only logged — no field of the state changes. -/
def loadContacts (s : BoardState) (result : Option (List Contact)) : BoardState :=
  match result with
  | some cs => { s with allContacts := cs }
  | none => s

/-- `loadTasks` (board.component.ts, lines 247-263): on a successful
fetch map the documents and keep only those with `deleted` falsy; a
rejected fetch is caught inside the function and only logged — no field
of the state changes. -/
def loadTasks (s : BoardState) (result : Option (List TaskDoc)) : BoardState :=
  match result with
  | some docs =>
      { s with allTasks := (docs.map taskFromDoc).filter (fun t => !t.deleted) }
  | none => s

/-- `loadData` (board.component.ts, lines 203-225): set loading, clear
the error, run both fetches (each swallows its own rejection, so the
surrounding catch that would set "Fehler beim Laden der Daten" can never
fire from a fetch rejection), partition, and clear the loading flag. -/
def loadData (s : BoardState) (contactsResult : Option (List Contact))
    (tasksResult : Option (List TaskDoc)) : BoardState :=
  let s1 := { s with isLoading := true, error := "" }
  let s2 := loadTasks (loadContacts s1 contactsResult) tasksResult
  let s3 := sortTasksIntoColumns s2
  { s3 with isLoading := false }

/-- The slice of a summary-page task used by `calculateStats`
(summary.component.ts): the raw spread of the document data with the
document id; no `deleted` filter and no `status` defaulting is applied on
this page. -/
structure SummaryTask where
  status : Option Status
  priority : Priority
  deleted : Bool
deriving DecidableEq

/-- The summary page's mapping of a snapshot document
(summary.component.ts, `loadDashboardData`): plain spread, keeping every
document. -/
def summaryTaskFromDoc (d : TaskDoc) : SummaryTask :=
  { status := d.status, priority := d.priority, deleted := d.deleted }

/-- The dashboard statistics record of `summary.component.ts`. -/
structure DashboardStats where
  totalTasks : Nat
  todoTasks : Nat
  inProgressTasks : Nat
  awaitFeedbackTasks : Nat
  doneTasks : Nat
  urgentTasks : Nat
deriving DecidableEq

/-- `calculateStats` (summary.component.ts, lines 153-164): counts over
the loaded task list, which was not filtered for `deleted`. -/
def calculateStats (tasks : List SummaryTask) : DashboardStats :=
  { totalTasks := tasks.length
    todoTasks := (tasks.filter (fun t => t.status == some Status.todo)).length
    inProgressTasks := (tasks.filter (fun t => t.status == some Status.inprogress)).length
    awaitFeedbackTasks := (tasks.filter (fun t => t.status == some Status.awaitfeedback)).length
    doneTasks := (tasks.filter (fun t => t.status == some Status.done)).length
    urgentTasks := (tasks.filter (fun t => t.priority == Priority.urgent)).length }

/-- The task-loading half of `loadDashboardData` (summary.component.ts):
map the snapshot documents unfiltered and compute the statistics. -/
def loadDashboardStats (docs : List TaskDoc) : DashboardStats :=
  calculateStats (docs.map summaryTaskFromDoc)

/-- The form state of `AddTaskComponent` (add-task.component.ts). -/
structure AddTaskState where
  title : String
  description : String
  dueDate : String
  priority : Priority
  assignedTo : List String
  category : String
  subtasks : List String
  error : String
  success : String
deriving DecidableEq

/-- `onSubmit` (add-task.component.ts, lines 299-336): clear messages,
validate `title`, `dueDate`, `category` (trimmed) in that order and abort
with a field error before any remote call; if valid, `addDoc` the trimmed
payload (`now` is the `createdAt` timestamp) and on success reset the
form, on failure set the error. -/
def onSubmit (s : AddTaskState) (now : String) (remoteOk : Bool) :
    AddTaskState × List RemoteCall :=
  let s0 := { s with error := "", success := "" }
  if s.title.trim = "" then ({ s0 with error := "Title is required." }, [])
  else if s.dueDate.trim = "" then ({ s0 with error := "Due date is required." }, [])
  else if s.category.trim = "" then ({ s0 with error := "Category is required." }, [])
  else
    let payload :=
      [FieldUpdate.title s.title.trim,
       FieldUpdate.description s.description.trim,
       FieldUpdate.dueDate s.dueDate.trim,
       FieldUpdate.priority s.priority,
       FieldUpdate.assignedTo s.assignedTo,
       FieldUpdate.category s.category.trim,
       FieldUpdate.subtasks s.subtasks,
       FieldUpdate.createdAt now]
    if remoteOk then
      ({ s0 with
        success := "Task created!"
        title := ""
        description := ""
        dueDate := ""
        priority := Priority.medium
        assignedTo := []
        category := ""
        subtasks := [] }, [RemoteCall.addTask payload])
    else
      ({ s0 with error := "Error saving task." }, [RemoteCall.addTask payload])

/-- A concrete task used by witnesses: status `todo`, id `t1`. -/
def sampleTodoTask : Task :=
  { id := some "t1"
    title := "Sample"
    description := ""
    dueDate := "2026-01-01"
    priority := Priority.medium
    assignedTo := []
    category := "User Story"
    subtasks := ["a", "b"]
    status := Status.todo
    createdAt := "2025-01-01"
    completedSubtasks := []
    deleted := false }

/-- An empty board state used as the base of concrete scenarios. -/
def emptyBoard : BoardState :=
  { allTasks := []
    allContacts := []
    todoTasks := []
    inProgressTasks := []
    awaitFeedbackTasks := []
    doneTasks := []
    isLoading := false
    error := ""
    selectedTask := none
    isEditMode := false
    editTask := none
    editContactSearch := ""
    showEditContactsDropdown := false
    filteredEditContacts := []
    showMobileMenu := none }

/-- A soft-deleted task document with a valid status and urgent
priority. -/
def deletedUrgentDoc : TaskDoc :=
  { docId := "d1"
    title := "Deleted task"
    description := ""
    dueDate := "2026-01-01"
    priority := Priority.urgent
    assignedTo := []
    category := "User Story"
    subtasks := []
    status := some Status.todo
    createdAt := "2025-01-01"
    completedSubtasks := []
    deleted := true }

/-- A blank add-task form. -/
def emptyAddTask : AddTaskState :=
  { title := ""
    description := ""
    dueDate := ""
    priority := Priority.medium
    assignedTo := []
    category := ""
    subtasks := []
    error := ""
    success := "" }

/-- A concrete board holding the single todo task `sampleTodoTask`. -/
def boardOneTodo : BoardState :=
  { emptyBoard with allTasks := [sampleTodoTask], todoTasks := [sampleTodoTask] }

/-- A concrete board with `sampleTodoTask` opened in the detail view. -/
def boardSelected : BoardState :=
  { emptyBoard with
    allTasks := [sampleTodoTask]
    selectedTask := some sampleTodoTask }

/-- A concrete board with `sampleTodoTask` in the edit buffer. -/
def boardEditing : BoardState :=
  { emptyBoard with
    allTasks := [sampleTodoTask]
    isEditMode := true
    editTask := some sampleTodoTask }

/-- An edit buffer whose required fields are all empty but whose id is
present. -/
def emptyTitleTask : Task :=
  { sampleTodoTask with title := "", dueDate := "", category := "" }

/-- A concrete board editing a buffer with empty required fields. -/
def boardEmptyTitleEdit : BoardState :=
  { emptyBoard with
    allTasks := [sampleTodoTask]
    isEditMode := true
    editTask := some emptyTitleTask }

lemma count_filter_neg {p : Task → Bool} {t : Task} (h : p t = false)
    (l : List Task) : (l.filter p).count t = 0 := by
  rw [List.count_eq_zero]
  intro hmem
  have := (List.mem_filter.mp hmem).2
  rw [h] at this
  exact Bool.false_ne_true this

/-- C1: `sortTasksIntoColumns` partitions the flat task list: a task is
in a column iff it is in `allTasks` with the matching status, the counts
over the four columns add up to the count in `allTasks` (each occurrence
lands in exactly one column), each column is a sublist of `allTasks`
(relative order preserved), and neither `allTasks` nor any task record is
mutated (the columns hold the very elements of the input list). -/
theorem sortTasksIntoColumns_partitions (s : BoardState) (t : Task) :
    (∀ st : Status,
      t ∈ columnFor (sortTasksIntoColumns s) st ↔ t ∈ s.allTasks ∧ t.status = st) ∧
    ((sortTasksIntoColumns s).todoTasks.count t
      + (sortTasksIntoColumns s).inProgressTasks.count t
      + (sortTasksIntoColumns s).awaitFeedbackTasks.count t
      + (sortTasksIntoColumns s).doneTasks.count t = s.allTasks.count t) ∧
    (∀ st : Status, (columnFor (sortTasksIntoColumns s) st).Sublist s.allTasks) ∧
    (sortTasksIntoColumns s).allTasks = s.allTasks := by
  refine ⟨?_, ?_, ?_, rfl⟩
  · intro st
    cases st <;>
      simp [sortTasksIntoColumns, columnFor, List.mem_filter, beq_iff_eq]
  · cases h : t.status
    case todo =>
      simp only [sortTasksIntoColumns]
      rw [List.count_filter (by simp [h]), count_filter_neg (by simp [h]),
        count_filter_neg (by simp [h]), count_filter_neg (by simp [h])]
      omega
    case inprogress =>
      simp only [sortTasksIntoColumns]
      rw [count_filter_neg (by simp [h]), List.count_filter (by simp [h]),
        count_filter_neg (by simp [h]), count_filter_neg (by simp [h])]
      omega
    case awaitfeedback =>
      simp only [sortTasksIntoColumns]
      rw [count_filter_neg (by simp [h]), count_filter_neg (by simp [h]),
        List.count_filter (by simp [h]), count_filter_neg (by simp [h])]
      omega
    case done =>
      simp only [sortTasksIntoColumns]
      rw [count_filter_neg (by simp [h]), count_filter_neg (by simp [h]),
        count_filter_neg (by simp [h]), List.count_filter (by simp [h])]
      omega
  · intro st
    cases st <;> simp [sortTasksIntoColumns, columnFor, List.filter_sublist]

lemma cons_eraseIdx_perm {α : Type} (l : List α) (i : Nat) (x : α)
    (h : l.get? i = some x) : List.Perm (x :: l.eraseIdx i) l := by
  induction l generalizing i with
  | nil => simp at h
  | cons a t ih =>
    cases i with
    | zero =>
      simp only [List.get?_cons_zero, Option.some.injEq] at h
      subst h
      simp only [List.eraseIdx_cons_zero]
      exact List.Perm.refl _
    | succ i =>
      have h2 : t.get? i = some x := by simpa using h
      simp only [List.eraseIdx_cons_succ]
      exact (List.Perm.swap a x _).trans ((ih i h2).cons a)

lemma moveItemInArray_perm {α : Type} (l : List α) (i j : Nat) :
    List.Perm (moveItemInArray l i j) l := by
  unfold moveItemInArray
  by_cases hij : min i (l.length - 1) = min j (l.length - 1)
  · simp [hij]
  · rw [if_neg hij]
    cases hg : l.get? (min i (l.length - 1)) with
    | none => exact List.Perm.refl l
    | some x =>
      have hlt : min i (l.length - 1) < l.length := by
        by_contra hge
        rw [List.get?_eq_none.mpr (Nat.le_of_not_lt hge)] at hg
        exact Option.noConfusion hg
      have hto : min j (l.length - 1) ≤ (l.eraseIdx (min i (l.length - 1))).length := by
        rw [List.length_eraseIdx_of_lt hlt]
        exact Nat.min_le_right _ _
      exact (List.perm_insertIdx x _ hto).trans (cons_eraseIdx_perm l _ x hg)

/-- C9: a drop whose source container equals its destination container is
a pure reorder: each of the four column sequences ends up a permutation
of its old value (so set membership per column and every task record —
including its status — are unchanged), the flat list, the error and the
selection are untouched, and no remote write is issued. -/
theorem onTaskDrop_same_container (s : BoardState) (ev : DropEvent)
    (col : List Task) (hsame : ev.previousContainerId = ev.containerId)
    (hcol : getColumn s ev.containerId = some col) :
    (onTaskDrop s ev).2 = [] ∧
    List.Perm (onTaskDrop s ev).1.todoTasks s.todoTasks ∧
    List.Perm (onTaskDrop s ev).1.inProgressTasks s.inProgressTasks ∧
    List.Perm (onTaskDrop s ev).1.awaitFeedbackTasks s.awaitFeedbackTasks ∧
    List.Perm (onTaskDrop s ev).1.doneTasks s.doneTasks ∧
    (onTaskDrop s ev).1.allTasks = s.allTasks ∧
    (onTaskDrop s ev).1.error = s.error ∧
    (onTaskDrop s ev).1.selectedTask = s.selectedTask := by
  unfold onTaskDrop
  rw [if_pos hsame, hcol]
  dsimp only
  unfold getColumn at hcol
  unfold setColumn
  split_ifs at hcol with h1 h2 h3 h4
  · rw [if_pos h1]
    obtain rfl : s.todoTasks = col := by injection hcol
    exact ⟨rfl, moveItemInArray_perm _ _ _, List.Perm.refl _, List.Perm.refl _,
      List.Perm.refl _, rfl, rfl, rfl⟩
  · rw [if_neg h1, if_pos h2]
    obtain rfl : s.inProgressTasks = col := by injection hcol
    exact ⟨rfl, List.Perm.refl _, moveItemInArray_perm _ _ _, List.Perm.refl _,
      List.Perm.refl _, rfl, rfl, rfl⟩
  · rw [if_neg h1, if_neg h2, if_pos h3]
    obtain rfl : s.awaitFeedbackTasks = col := by injection hcol
    exact ⟨rfl, List.Perm.refl _, List.Perm.refl _, moveItemInArray_perm _ _ _,
      List.Perm.refl _, rfl, rfl, rfl⟩
  · rw [if_neg h1, if_neg h2, if_neg h3, if_pos h4]
    obtain rfl : s.doneTasks = col := by injection hcol
    exact ⟨rfl, List.Perm.refl _, List.Perm.refl _, List.Perm.refl _,
      moveItemInArray_perm _ _ _, rfl, rfl, rfl⟩

/-- Witness for C9: reordering a concrete two-task todo column. -/
theorem onTaskDrop_same_container_witness :
    (("todo-list" : String) = "todo-list" ∧
      getColumn
        { emptyBoard with
          todoTasks := [sampleTodoTask, { sampleTodoTask with id := some "t2" }] }
        "todo-list" =
        some [sampleTodoTask, { sampleTodoTask with id := some "t2" }]) ∧
    (onTaskDrop
      { emptyBoard with
        todoTasks := [sampleTodoTask, { sampleTodoTask with id := some "t2" }] }
      ⟨"todo-list", "todo-list", 0, 1⟩).2 = [] := by
  refine ⟨⟨rfl, rfl⟩, ?_⟩
  exact (onTaskDrop_same_container _ ⟨"todo-list", "todo-list", 0, 1⟩ _ rfl rfl).1

lemma getColumn_todoList (s : BoardState) :
    getColumn s "todo-list" = some s.todoTasks := rfl

lemma getColumn_doneList (s : BoardState) :
    getColumn s "done-list" = some s.doneTasks := rfl

lemma setColumn_todoList (s : BoardState) (col : List Task) :
    setColumn s "todo-list" col = { s with todoTasks := col } := rfl

lemma setColumn_doneList (s : BoardState) (col : List Task) :
    setColumn s "done-list" col = { s with doneTasks := col } := rfl

lemma onTaskDrop_todo_done_eq (s : BoardState) (p i : Nat) (t : Task)
    (tid : String)
    (hget : s.todoTasks.get? p = some t)
    (hid : t.id = some tid) (htid : tid ≠ "")
    (hi : i ≤ s.doneTasks.length) :
    onTaskDrop s ⟨"todo-list", "done-list", p, i⟩ =
      ({ s with
          todoTasks := s.todoTasks.eraseIdx p
          doneTasks := (s.doneTasks.insertIdx i t).set i { t with status := Status.done }
          allTasks := s.allTasks.map (fun u =>
            if u.id == some tid then { u with status := Status.done } else u) },
        [RemoteCall.updateTask tid [FieldUpdate.status Status.done]]) := by
  have hp : p < s.todoTasks.length := by
    by_contra hge
    rw [List.get?_eq_none.mpr (Nat.le_of_not_lt hge)] at hget
    exact Option.noConfusion hget
  have hminp : min p (s.todoTasks.length - 1) = p := Nat.min_eq_left (by omega)
  have hmini : min i s.doneTasks.length = i := Nat.min_eq_left hi
  unfold onTaskDrop
  dsimp only
  rw [if_neg (by decide : ¬("todo-list" : String) = "done-list")]
  rw [getColumn_todoList, getColumn_doneList]
  dsimp only
  rw [hget]
  dsimp only
  rw [hid, show getStatusFromContainer "done-list" = some Status.done from rfl]
  dsimp only
  rw [if_neg htid]
  unfold transferArrayItem updateTaskStatus
  rw [hminp, hget]
  dsimp only
  rw [hmini, setColumn_todoList, setColumn_doneList]

/-- C2: dropping a todo task with a truthy id into the `done-list`
container at a valid destination index `i` leaves the task absent from
the todo sequence, present in the done sequence at index `i` with its
in-memory status set to `done` (likewise for the shared `allTasks`
record), and issues exactly one remote update, of only the `status`
field, keyed by the task's id. -/
theorem onTaskDrop_todo_to_done (s : BoardState) (p i : Nat) (t : Task)
    (tid : String)
    (hget : s.todoTasks.get? p = some t)
    (_hstatus : t.status = Status.todo)
    (hid : t.id = some tid) (htid : tid ≠ "")
    (hi : i ≤ s.doneTasks.length)
    (hcount : s.todoTasks.count t = 1) :
    (onTaskDrop s ⟨"todo-list", "done-list", p, i⟩).2
        = [RemoteCall.updateTask tid [FieldUpdate.status Status.done]] ∧
    (onTaskDrop s ⟨"todo-list", "done-list", p, i⟩).1.doneTasks.get? i
        = some { t with status := Status.done } ∧
    t ∉ (onTaskDrop s ⟨"todo-list", "done-list", p, i⟩).1.todoTasks ∧
    (∀ u ∈ (onTaskDrop s ⟨"todo-list", "done-list", p, i⟩).1.allTasks,
      u.id = some tid → u.status = Status.done) := by
  rw [onTaskDrop_todo_done_eq s p i t tid hget hid htid hi]
  refine ⟨rfl, ?_, ?_, ?_⟩
  · rw [List.get?_eq_getElem?]
    exact List.getElem?_set_self
      (by rw [List.length_insertIdx i s.doneTasks hi]; omega)
  · show t ∉ s.todoTasks.eraseIdx p
    have hperm := cons_eraseIdx_perm s.todoTasks p t hget
    have hcnt := hperm.count_eq t
    rw [List.count_cons_self, hcount] at hcnt
    exact List.count_eq_zero.mp (by omega)
  · intro u hu huid
    obtain ⟨v, hv, rfl⟩ := List.mem_map.mp hu
    cases hbeq : v.id == some tid with
    | true => simp [hbeq]
    | false =>
      simp only [hbeq, Bool.false_eq_true, if_false] at huid ⊢
      rw [huid] at hbeq
      simp at hbeq

/-- Witness for C2: a one-task board, dropping the single todo task into
the empty done column at index 0. -/
theorem onTaskDrop_todo_to_done_witness :
    (boardOneTodo.todoTasks.get? 0 = some sampleTodoTask ∧
      sampleTodoTask.status = Status.todo ∧
      sampleTodoTask.id = some "t1" ∧ ("t1" : String) ≠ "" ∧
      (0 : Nat) ≤ boardOneTodo.doneTasks.length ∧
      boardOneTodo.todoTasks.count sampleTodoTask = 1) ∧
    (onTaskDrop boardOneTodo ⟨"todo-list", "done-list", 0, 0⟩).2
        = [RemoteCall.updateTask "t1" [FieldUpdate.status Status.done]] := by
  refine ⟨⟨by decide, rfl, rfl, by decide, by decide, by decide⟩, ?_⟩
  exact (onTaskDrop_todo_to_done boardOneTodo 0 0 sampleTodoTask "t1"
    (by decide) rfl rfl (by decide) (by decide) (by decide)).1

/-- C10: the non-drag status move (`moveTaskToStatus`, used by the mobile
move menu) is not optimistic.  If the target status equals the current
one, or the task's id is falsy, no remote call is issued and the state is
completely unchanged.  Otherwise the remote update is awaited before any
local mutation: when it rejects, the resulting state differs from the
original only in the error message — `allTasks` and every column sequence
are untouched — while the attempted call is recorded. -/
theorem moveTaskToStatus_not_optimistic (s : BoardState) (i : Nat) (t : Task)
    (newStatus : Status) (hget : s.allTasks.get? i = some t) :
    ((t.status = newStatus ∨ idTruthy t.id = false) →
      ∀ ok, moveTaskToStatus s i newStatus ok = (s, [])) ∧
    (∀ tid, t.id = some tid → t.status ≠ newStatus → tid ≠ "" →
      moveTaskToStatus s i newStatus false
        = ({ s with error := "Fehler beim Verschieben der Aufgabe" },
            [RemoteCall.updateTask tid [FieldUpdate.status newStatus]])) := by
  constructor
  · intro h ok
    unfold moveTaskToStatus
    rw [hget]
    have hcond : (t.status == newStatus || !(idTruthy t.id)) = true := by
      rcases h with h | h
      · simp [h]
      · simp [h]
    simp [hcond]
  · intro tid hid hne htid
    unfold moveTaskToStatus
    rw [hget]
    have h1 : (t.status == newStatus) = false := beq_eq_false_iff_ne.mpr hne
    have h2 : idTruthy t.id = true := by
      rw [hid]
      simpa [idTruthy] using htid
    have hcond : (t.status == newStatus || !(idTruthy t.id)) = false := by
      simp [h1, h2]
    simp only [hcond, Bool.false_eq_true, if_false]
    rw [hid]
    rfl

/-- Witness for C10: on the one-task board, moving the task to its
current status does nothing, and a rejected move to `done` only sets the
error message while recording the attempted call. -/
theorem moveTaskToStatus_not_optimistic_witness :
    (boardOneTodo.allTasks.get? 0 = some sampleTodoTask ∧
      sampleTodoTask.status = Status.todo ∧
      sampleTodoTask.id = some "t1" ∧
      sampleTodoTask.status ≠ Status.done ∧ ("t1" : String) ≠ "") ∧
    moveTaskToStatus boardOneTodo 0 Status.todo true = (boardOneTodo, []) ∧
    moveTaskToStatus boardOneTodo 0 Status.done false
      = ({ boardOneTodo with error := "Fehler beim Verschieben der Aufgabe" },
          [RemoteCall.updateTask "t1" [FieldUpdate.status Status.done]]) := by
  refine ⟨⟨by decide, rfl, rfl, by decide, by decide⟩, ?_, ?_⟩
  · exact (moveTaskToStatus_not_optimistic boardOneTodo 0 sampleTodoTask
      Status.todo (by decide)).1 (Or.inl rfl) true
  · exact (moveTaskToStatus_not_optimistic boardOneTodo 0 sampleTodoTask
      Status.done (by decide)).2 "t1" rfl (by decide) (by decide)

lemma toggleCompleted_pos {c : List String} {text : String} (h : text ∈ c) :
    toggleCompleted c text = c.erase text := by
  unfold toggleCompleted
  rw [if_pos (by simpa using h)]

lemma toggleCompleted_neg {c : List String} {text : String} (h : text ∉ c) :
    toggleCompleted c text = c ++ [text] := by
  unfold toggleCompleted
  rw [if_neg (by simpa using h)]

lemma toggleCompleted_twice_mem (c : List String) (text x : String)
    (hnd : c.Nodup) :
    (x ∈ toggleCompleted (toggleCompleted c text) text ↔ x ∈ c) := by
  by_cases hmem : text ∈ c
  · rw [toggleCompleted_pos hmem, toggleCompleted_neg hnd.not_mem_erase]
    by_cases hx : x = text
    · subst hx
      simp [hmem]
    · simp only [List.mem_append, List.mem_singleton, hx, or_false]
      exact List.mem_erase_of_ne hx
  · rw [toggleCompleted_neg hmem,
      toggleCompleted_pos (by simp : text ∈ c ++ [text]),
      List.erase_append_right _ hmem, List.erase_cons_head]
    simp

lemma toggleSubtask_selected (s : BoardState) (sel : Task) (tid : String)
    (i : Nat) (ok : Bool) (text : String)
    (hsel : s.selectedTask = some sel) (hid : sel.id = some tid)
    (htid : tid ≠ "") (hget : sel.subtasks.get? i = some text) :
    (toggleSubtask s i ok).1.selectedTask
      = some { sel with completedSubtasks := toggleCompleted sel.completedSubtasks text } := by
  unfold toggleSubtask
  rw [hsel]
  dsimp only
  have h2 : idTruthy sel.id = true := by
    rw [hid]
    simpa [idTruthy] using htid
  rw [if_neg (show ¬((!(idTruthy sel.id)) = true) by simp [h2])]
  rw [hid]
  dsimp only
  rw [hget]
  cases ok <;> rfl

/-- C7: toggling the completion of the same subtask twice returns the
selected task's `completedSubtasks` to its original value as a set: the
resulting membership is exactly the original membership (value-based:
the first toggle adds the text if absent or removes it if present, the
second undoes that), for any outcomes of the two awaited remote writes. -/
theorem toggleSubtask_twice_restores (s : BoardState) (sel : Task)
    (tid : String) (i : Nat) (ok1 ok2 : Bool)
    (hsel : s.selectedTask = some sel)
    (hid : sel.id = some tid) (htid : tid ≠ "")
    (hi : i < sel.subtasks.length)
    (hnd : sel.completedSubtasks.Nodup) :
    ∃ sel2,
      (toggleSubtask (toggleSubtask s i ok1).1 i ok2).1.selectedTask = some sel2 ∧
      (∀ x, x ∈ sel2.completedSubtasks ↔ x ∈ sel.completedSubtasks) := by
  obtain ⟨text, hget⟩ : ∃ text, sel.subtasks.get? i = some text :=
    ⟨_, List.get?_eq_get hi⟩
  have h1 := toggleSubtask_selected s sel tid i ok1 text hsel hid htid hget
  have h2 := toggleSubtask_selected (toggleSubtask s i ok1).1
    { sel with completedSubtasks := toggleCompleted sel.completedSubtasks text }
    tid i ok2 text h1 hid htid hget
  exact ⟨_, h2, fun x => toggleCompleted_twice_mem sel.completedSubtasks text x hnd⟩

/-- Witness for C7: double-toggling subtask 0 of the selected sample
task. -/
theorem toggleSubtask_twice_restores_witness :
    (boardSelected.selectedTask = some sampleTodoTask ∧
      sampleTodoTask.id = some "t1" ∧ ("t1" : String) ≠ "" ∧
      0 < sampleTodoTask.subtasks.length ∧
      sampleTodoTask.completedSubtasks.Nodup) ∧
    ∃ sel2,
      (toggleSubtask (toggleSubtask boardSelected 0 true).1 0 true).1.selectedTask
        = some sel2 ∧
      (∀ x, x ∈ sel2.completedSubtasks ↔ x ∈ sampleTodoTask.completedSubtasks) :=
  ⟨⟨rfl, rfl, by decide, by decide, by decide⟩,
    toggleSubtask_twice_restores boardSelected sampleTodoTask "t1" 0 true true
      rfl rfl (by decide) (by decide) (by decide)⟩

lemma applyEditOp_frame (s : BoardState) (op : EditOp) :
    (applyEditOp s op).allTasks = s.allTasks ∧
    (applyEditOp s op).selectedTask = s.selectedTask := by
  cases op with
  | addSubtask =>
    unfold applyEditOp addSubtaskToEdit
    dsimp only
    cases h : s.editTask <;> exact ⟨rfl, rfl⟩
  | removeSubtask i =>
    unfold applyEditOp removeSubtaskFromEdit
    dsimp only
    cases h : s.editTask <;> exact ⟨rfl, rfl⟩
  | toggleContact c =>
    unfold applyEditOp toggleEditContactSelection
    dsimp only
    cases hc : c.id with
    | none => exact ⟨rfl, rfl⟩
    | some cid =>
      cases he : s.editTask with
      | none => exact ⟨rfl, rfl⟩
      | some t =>
        dsimp only
        by_cases h1 : cid = ""
        · rw [if_pos h1]
          exact ⟨rfl, rfl⟩
        · rw [if_neg h1]
          by_cases h2 : t.assignedTo.contains cid = true
          · rw [if_pos h2]
            exact ⟨rfl, rfl⟩
          · rw [if_neg h2]
            exact ⟨rfl, rfl⟩

lemma applyEditOps_frame (ops : List EditOp) : ∀ s : BoardState,
    (applyEditOps s ops).allTasks = s.allTasks ∧
    (applyEditOps s ops).selectedTask = s.selectedTask := by
  induction ops with
  | nil => exact fun s => ⟨rfl, rfl⟩
  | cons op rest ih =>
    intro s
    have h1 := applyEditOp_frame s op
    have h2 := ih (applyEditOp s op)
    exact ⟨h2.1.trans h1.1, h2.2.trans h1.2⟩

/-- C8: the edit buffer is isolated from the committed state.  Entering
edit mode stores a value copy of the task (the source deep-clones via a
JSON round trip, so the buffer shares no mutable containers with the
committed record); after any sequence of buffer mutations (subtask
add/remove, contact toggle) the flat task list and the selected committed
record are unchanged, and cancelling discards the buffer with no remote
call, leaving the committed state identical to its pre-edit value. -/
theorem editBuffer_isolation (s : BoardState) (task : Task) (ops : List EditOp) :
    (applyEditOps (startEditMode s task) ops).allTasks = s.allTasks ∧
    (applyEditOps (startEditMode s task) ops).selectedTask = s.selectedTask ∧
    (cancelEditMode (applyEditOps (startEditMode s task) ops)).1.allTasks = s.allTasks ∧
    (cancelEditMode (applyEditOps (startEditMode s task) ops)).1.selectedTask = s.selectedTask ∧
    (cancelEditMode (applyEditOps (startEditMode s task) ops)).1.editTask = none ∧
    (cancelEditMode (applyEditOps (startEditMode s task) ops)).2 = [] := by
  have h := applyEditOps_frame ops (startEditMode s task)
  have hall : (applyEditOps (startEditMode s task) ops).allTasks = s.allTasks :=
    h.1.trans rfl
  have hselect : (applyEditOps (startEditMode s task) ops).selectedTask = s.selectedTask :=
    h.2.trans rfl
  exact ⟨hall, hselect, hall, hselect, rfl, rfl⟩

lemma saveEditedTask_calls (s : BoardState) (t : Task) (tid : String)
    (ok : Bool) (hedit : s.editTask = some t) (hid : t.id = some tid)
    (htid : tid ≠ "") :
    (saveEditedTask s ok).2 = [RemoteCall.updateTask tid (editPayload t)] := by
  unfold saveEditedTask
  rw [hedit]
  dsimp only
  have h2 : idTruthy t.id = true := by
    rw [hid]
    simpa [idTruthy] using htid
  rw [if_neg (show ¬((!(idTruthy t.id)) = true) by simp [h2])]
  rw [hid]
  dsimp only
  cases ok <;> rfl

/-- C6: for any edit buffer with a truthy id, `saveEditedTask` issues
exactly one remote partial update whose payload carries exactly the
seven editable fields — title, description, dueDate, priority,
assignedTo, category, subtasks — and never `status`,
`completedSubtasks`, `createdAt` or `deleted`, regardless of the write's
outcome. -/
theorem saveEditedTask_payload_exact (s : BoardState) (t : Task)
    (tid : String) (ok : Bool)
    (hedit : s.editTask = some t) (hid : t.id = some tid)
    (htid : tid ≠ "") :
    (saveEditedTask s ok).2 = [RemoteCall.updateTask tid (editPayload t)] ∧
    (editPayload t).map fieldName
      = [TaskField.title, TaskField.description, TaskField.dueDate,
         TaskField.priority, TaskField.assignedTo, TaskField.category,
         TaskField.subtasks] ∧
    TaskField.status ∉ (editPayload t).map fieldName ∧
    TaskField.completedSubtasks ∉ (editPayload t).map fieldName ∧
    TaskField.createdAt ∉ (editPayload t).map fieldName ∧
    TaskField.deleted ∉ (editPayload t).map fieldName := by
  have hmap : (editPayload t).map fieldName
      = [TaskField.title, TaskField.description, TaskField.dueDate,
         TaskField.priority, TaskField.assignedTo, TaskField.category,
         TaskField.subtasks] := rfl
  exact ⟨saveEditedTask_calls s t tid ok hedit hid htid, hmap,
    by rw [hmap]; decide, by rw [hmap]; decide,
    by rw [hmap]; decide, by rw [hmap]; decide⟩

/-- Witness for C6: saving the sample edit buffer records exactly the
seven-field update. -/
theorem saveEditedTask_payload_exact_witness :
    (boardEditing.editTask = some sampleTodoTask ∧
      sampleTodoTask.id = some "t1" ∧ ("t1" : String) ≠ "") ∧
    (saveEditedTask boardEditing true).2
      = [RemoteCall.updateTask "t1" (editPayload sampleTodoTask)] :=
  ⟨⟨rfl, rfl, by decide⟩,
    (saveEditedTask_payload_exact boardEditing sampleTodoTask "t1" true rfl rfl
      (by decide)).1⟩

lemma trim_empty : ("" : String).trim = "" := by
  unfold String.trim Substring.trim
  unfold Substring.takeWhileAux
  unfold Substring.takeRightWhileAux
  simp [String.toSubstring, String.endPos, String.utf8ByteSize, Substring.toString]
  rfl

/-- C4 counterexample: saving an edit buffer whose title, dueDate and
category are all empty (id present) issues the remote update and reports
no validation error — refuting the claim that every such save aborts
before any remote write with a validation error. -/
theorem saveEditedTask_no_validation_counterexample :
    emptyTitleTask.title = "" ∧ emptyTitleTask.dueDate = "" ∧
    emptyTitleTask.category = "" ∧
    boardEmptyTitleEdit.editTask = some emptyTitleTask ∧
    (saveEditedTask boardEmptyTitleEdit true).2
      = [RemoteCall.updateTask "t1" (editPayload emptyTitleTask)] ∧
    (saveEditedTask boardEmptyTitleEdit true).1.error = "" := by
  refine ⟨rfl, rfl, rfl, rfl, ?_, ?_⟩ <;> decide

/-- C4 (amended): the required-field gate exists only on the create path:
`onSubmit` aborts with a field-specific validation error and no remote
call when the trimmed title, dueDate or category is empty; the edit-save
path performs no such validation — whenever an edit buffer with a truthy
id exists, `saveEditedTask` issues the remote update regardless of those
fields, aborting only when no buffer is present or the buffer's id is
falsy (absent or empty). -/
theorem requiredFieldGate_create_only :
    (∀ (s : AddTaskState) (now : String) (ok : Bool), s.title.trim = "" →
      (onSubmit s now ok).2 = [] ∧
      (onSubmit s now ok).1.error = "Title is required.") ∧
    (∀ (s : AddTaskState) (now : String) (ok : Bool),
      s.title.trim ≠ "" → s.dueDate.trim = "" →
      (onSubmit s now ok).2 = [] ∧
      (onSubmit s now ok).1.error = "Due date is required.") ∧
    (∀ (s : AddTaskState) (now : String) (ok : Bool),
      s.title.trim ≠ "" → s.dueDate.trim ≠ "" → s.category.trim = "" →
      (onSubmit s now ok).2 = [] ∧
      (onSubmit s now ok).1.error = "Category is required.") ∧
    (∀ (s : BoardState) (t : Task) (tid : String) (ok : Bool),
      s.editTask = some t → t.id = some tid → tid ≠ "" →
      (saveEditedTask s ok).2 = [RemoteCall.updateTask tid (editPayload t)]) ∧
    (∀ (s : BoardState) (ok : Bool), s.editTask = none →
      saveEditedTask s ok = (s, [])) ∧
    (∀ (s : BoardState) (t : Task) (ok : Bool),
      s.editTask = some t → idTruthy t.id = false →
      saveEditedTask s ok = (s, [])) := by
  refine ⟨?_, ?_, ?_, ?_, ?_, ?_⟩
  · intro s now ok h
    unfold onSubmit
    dsimp only
    rw [if_pos h]
    exact ⟨rfl, rfl⟩
  · intro s now ok h1 h2
    unfold onSubmit
    dsimp only
    rw [if_neg h1, if_pos h2]
    exact ⟨rfl, rfl⟩
  · intro s now ok h1 h2 h3
    unfold onSubmit
    dsimp only
    rw [if_neg h1, if_neg h2, if_pos h3]
    exact ⟨rfl, rfl⟩
  · intro s t tid ok hedit hid htid
    exact saveEditedTask_calls s t tid ok hedit hid htid
  · intro s ok h
    unfold saveEditedTask
    rw [h]
  · intro s t ok hedit hfalsy
    unfold saveEditedTask
    rw [hedit]
    dsimp only
    rw [if_pos (show (!(idTruthy t.id)) = true by simp [hfalsy])]

/-- Witness for the amended C4: the blank create form aborts with the
title error and no call; the concrete empty-fields edit buffer is saved
with a remote update anyway. -/
theorem requiredFieldGate_create_only_witness :
    (emptyAddTask.title.trim = "" ∧
      (onSubmit emptyAddTask "2026-01-01" true).2 = [] ∧
      (onSubmit emptyAddTask "2026-01-01" true).1.error = "Title is required.") ∧
    (boardEmptyTitleEdit.editTask = some emptyTitleTask ∧
      emptyTitleTask.id = some "t1" ∧ ("t1" : String) ≠ "" ∧
      (saveEditedTask boardEmptyTitleEdit true).2
        = [RemoteCall.updateTask "t1" (editPayload emptyTitleTask)]) :=
  ⟨⟨trim_empty, requiredFieldGate_create_only.1 emptyAddTask "2026-01-01" true trim_empty⟩,
    ⟨rfl, rfl, by decide,
      requiredFieldGate_create_only.2.2.2.1 boardEmptyTitleEdit emptyTitleTask
        "t1" true rfl rfl (by decide)⟩⟩

/-- C3 (code-bug demonstration): a soft-deleted task document with a
valid status and urgent priority is excluded from the board — `loadTasks`
filters it out, so every partitioned column is empty — but the summary
page loads its documents without any `deleted` filter, so
`calculateStats` counts the deleted task in `totalTasks`, `todoTasks` and
`urgentTasks`, contradicting the invariant that a deleted task appears in
no aggregate count. -/
theorem deleted_task_counted_in_summary_stats :
    deletedUrgentDoc.deleted = true ∧
    (loadTasks emptyBoard (some [deletedUrgentDoc])).allTasks = [] ∧
    (sortTasksIntoColumns
      (loadTasks emptyBoard (some [deletedUrgentDoc]))).todoTasks = [] ∧
    (loadDashboardStats [deletedUrgentDoc]).totalTasks = 1 ∧
    (loadDashboardStats [deletedUrgentDoc]).todoTasks = 1 ∧
    (loadDashboardStats [deletedUrgentDoc]).urgentTasks = 1 := by
  refine ⟨rfl, ?_, ?_, ?_, ?_, ?_⟩ <;> decide

/-- C5 (code-bug demonstration): when both the contacts fetch and the
tasks fetch reject, `loadData` leaves the error field empty — each load
function swallows its rejection with only a console log, so the branch
that would set "Fehler beim Laden der Daten" is unreachable from a fetch
rejection — while the previously loaded tasks, contacts and columns are
preserved and only the loading flag is cleared.  No displayable error
state is set, contradicting the claim. -/
theorem loadData_fetch_failure_sets_no_error :
    (loadData boardOneTodo none none).error = "" ∧
    (loadData boardOneTodo none none).allTasks = boardOneTodo.allTasks ∧
    (loadData boardOneTodo none none).allContacts = boardOneTodo.allContacts ∧
    (loadData boardOneTodo none none).todoTasks = boardOneTodo.todoTasks ∧
    (loadData boardOneTodo none none).isLoading = false := by
  refine ⟨?_, ?_, ?_, ?_, ?_⟩ <;> decide

end Join
